import Mathlib

/-!
Verification of the charset transcoding library (streaming byte codecs).

Each codec is embedded shallowly: the C functions of the repository are
translated into pure Lean functions over the 64-bit codec state, which is
modelled as a pair of natural numbers (s0, s1) exactly as in charset.h
(struct charset_state with two unsigned long words, both always < 2^32 here).
The emit callback is modelled by returning the list of emitted values in
order.  C bitwise operators are kept as Nat bitwise operators; all values
stay far below 2^32, so complement masks from the source are written as
their 32-bit constants.
-/

/-- Codec state: the two 32-bit words s0 and s1 of struct charset_state. -/
abbrev CState := Nat × Nat

/-- The in-band error sentinel ERROR from internal.h. -/
def CERROR : Nat := 0xFFFF

/-- Drive a decoder step function over a list of input bytes, starting from a
given state, collecting every emitted value in order (the streaming loop of
charset_to_unicode restricted to one codec). -/
def runBytes (step : Nat → CState → CState × List Nat) : CState → List Nat → CState × List Nat
  | st, [] => (st, [])
  | st, b :: bs =>
    let r := step b st
    let r2 := runBytes step r.1 bs
    (r2.1, r.2 ++ r2.2)

section BitArith

/-- Bitwise AND with a low mask is a remainder. -/
theorem nat_and_ff (x : Nat) : x &&& 0xFF = x % 0x100 := by
  have h := Nat.and_pow_two_sub_one_eq_mod x 8
  norm_num at h
  exact h

theorem nat_and_f (x : Nat) : x &&& 0xF = x % 0x10 := by
  have h := Nat.and_pow_two_sub_one_eq_mod x 4
  norm_num at h
  exact h

theorem nat_and_3 (x : Nat) : x &&& 3 = x % 4 := by
  have h := Nat.and_pow_two_sub_one_eq_mod x 2
  norm_num at h
  exact h

theorem nat_and_7 (x : Nat) : x &&& 7 = x % 8 := by
  have h := Nat.and_pow_two_sub_one_eq_mod x 3
  norm_num at h
  exact h

theorem nat_and_3f (x : Nat) : x &&& 0x3F = x % 0x40 := by
  have h := Nat.and_pow_two_sub_one_eq_mod x 6
  norm_num at h
  exact h

theorem nat_and_7f (x : Nat) : x &&& 0x7F = x % 0x80 := by
  have h := Nat.and_pow_two_sub_one_eq_mod x 7
  norm_num at h
  exact h

theorem nat_and_3ff (x : Nat) : x &&& 0x3FF = x % 0x400 := by
  have h := Nat.and_pow_two_sub_one_eq_mod x 10
  norm_num at h
  exact h

theorem nat_and_ffff (x : Nat) : x &&& 0xFFFF = x % 0x10000 := by
  have h := Nat.and_pow_two_sub_one_eq_mod x 16
  norm_num at h
  exact h

theorem nat_and_ffffff (x : Nat) : x &&& 0xFFFFFF = x % 0x1000000 := by
  have h := Nat.and_pow_two_sub_one_eq_mod x 24
  norm_num at h
  exact h

/-- Bitwise AND with a single-bit mask, in divisibility form. -/
theorem nat_and_two_pow_if (x k : Nat) :
    x &&& 2 ^ k = if x / 2 ^ k % 2 = 1 then 2 ^ k else 0 := by
  rw [Nat.and_two_pow, Nat.testBit_to_div_mod]
  by_cases h : x / 2 ^ k % 2 = 1 <;> simp [h]

theorem nat_and_10000 (x : Nat) :
    x &&& 0x10000 = if x / 0x10000 % 2 = 1 then 0x10000 else 0 := by
  have h := nat_and_two_pow_if x 16
  norm_num at h
  exact h

theorem nat_and_20000 (x : Nat) :
    x &&& 0x20000 = if x / 0x20000 % 2 = 1 then 0x20000 else 0 := by
  have h := nat_and_two_pow_if x 17
  norm_num at h
  exact h

theorem nat_and_40000 (x : Nat) :
    x &&& 0x40000 = if x / 0x40000 % 2 = 1 then 0x40000 else 0 := by
  have h := nat_and_two_pow_if x 18
  norm_num at h
  exact h

theorem nat_and_100000 (x : Nat) :
    x &&& 0x100000 = if x / 0x100000 % 2 = 1 then 0x100000 else 0 := by
  have h := nat_and_two_pow_if x 20
  norm_num at h
  exact h

/-- Bitwise AND with a contiguous run of bits is a shifted remainder. -/
theorem nat_and_run (x a b : Nat) :
    x &&& (2 ^ b - 1) * 2 ^ a = x / 2 ^ a % 2 ^ b * 2 ^ a := by
  apply Nat.eq_of_testBit_eq
  intro i
  rcases Nat.lt_or_ge i a with hia | hia
  · have h1 : Nat.testBit ((2 ^ b - 1) * 2 ^ a) i = false := by
      rw [Nat.mul_comm, Nat.testBit_mul_pow_two]
      simp [Nat.not_le_of_lt hia]
    have h2 : Nat.testBit (x / 2 ^ a % 2 ^ b * 2 ^ a) i = false := by
      rw [Nat.mul_comm, Nat.testBit_mul_pow_two]
      simp [Nat.not_le_of_lt hia]
    simp [Nat.testBit_and, h1, h2]
  · have hdiv : Nat.testBit (x / 2 ^ a) (i - a) = Nat.testBit x i := by
      rw [← Nat.shiftRight_eq_div_pow, Nat.testBit_shiftRight,
          Nat.add_sub_cancel' hia]
    have h1 : Nat.testBit ((2 ^ b - 1) * 2 ^ a) i = decide (i - a < b) := by
      rw [Nat.mul_comm, Nat.testBit_mul_pow_two]
      simp [hia]
    have h2 : Nat.testBit (x / 2 ^ a % 2 ^ b * 2 ^ a) i
        = (decide (i - a < b) && Nat.testBit x i) := by
      rw [Nat.mul_comm, Nat.testBit_mul_pow_two]
      simp [hia, Nat.testBit_mod_two_pow, hdiv, Bool.and_comm]
    simp [Nat.testBit_and, h1, h2, Bool.and_comm]

theorem nat_and_ffff0000 (x : Nat) :
    x &&& 0xFFFF0000 = x / 0x10000 % 0x10000 * 0x10000 := by
  have h := nat_and_run x 16 16
  norm_num at h
  exact h

theorem nat_and_ff000000 (x : Nat) :
    x &&& 0xFF000000 = x / 0x1000000 % 0x100 * 0x1000000 := by
  have h := nat_and_run x 24 8
  norm_num at h
  exact h

theorem nat_and_0f000000 (x : Nat) :
    x &&& 0x0F000000 = x / 0x1000000 % 0x10 * 0x1000000 := by
  have h := nat_and_run x 24 4
  norm_num at h
  exact h

/-- Bitwise OR of a value with zero low bits and a small value is addition. -/
theorem nat_or_add (b k a : Nat) (hb : b < 2 ^ k) :
    2 ^ k * a ||| b = 2 ^ k * a + b :=
  (Nat.mul_add_lt_is_or hb a).symm

theorem nat_or_100 {b : Nat} (hb : b < 0x100) : 0x100 ||| b = 0x100 + b := by
  have h := nat_or_add b 8 1 (by omega)
  norm_num at h
  exact h

theorem nat_or_60000 {b : Nat} (hb : b < 0x10000) :
    0x60000 ||| b = 0x60000 + b := by
  have h := nat_or_add b 16 6 (by omega)
  norm_num at h
  exact h

theorem nat_or_d800 {b : Nat} (hb : b < 0x400) : 0xD800 ||| b = 0xD800 + b := by
  have h := nat_or_add b 10 0x36 (by omega)
  norm_num at h
  exact h

theorem nat_or_dc00 {b : Nat} (hb : b < 0x400) : 0xDC00 ||| b = 0xDC00 + b := by
  have h := nat_or_add b 10 0x37 (by omega)
  norm_num at h
  exact h

theorem nat_or_mul_400 {a b : Nat} (ha : a < 0x400) :
    a ||| b * 0x400 = b * 0x400 + a := by
  rw [Nat.lor_comm]
  have h := nat_or_add a 10 b (by omega)
  rw [Nat.mul_comm (2 ^ 10) b] at h
  norm_num at h
  exact h

theorem nat_shiftLeft_8 (x : Nat) : x <<< 8 = x * 0x100 := by
  rw [Nat.shiftLeft_eq]

theorem nat_shiftLeft_10 (x : Nat) : x <<< 10 = x * 0x400 := by
  rw [Nat.shiftLeft_eq]

theorem nat_shiftRight_8 (x : Nat) : x >>> 8 = x / 0x100 := by
  rw [Nat.shiftRight_eq_div_pow]

theorem nat_shiftRight_10 (x : Nat) : x >>> 10 = x / 0x400 := by
  rw [Nat.shiftRight_eq_div_pow]

end BitArith

/-!
UTF-16 codec (src/utf16.c).  struct utf16 carries the initial value of s0:
0x20000 for UTF-16BE, 0x10000 for UTF-16LE, 0x30000 for auto-detect.
-/

/-- The struct utf16 parameter block: initial value of state s0. -/
structure Utf16Data where
  s0 : Nat

def utf16_bigendian : Utf16Data := ⟨0x20000⟩

def utf16_littleendian : Utf16Data := ⟨0x10000⟩

def utf16_variable_endianness : Utf16Data := ⟨0x30000⟩

/-- Surrogate processing of a completed (already byte-swapped) halfword, the
tail of read_utf16 (utf16.c lines 96-136); s1 is zero at this point. -/
def utf16_process (s0 hw : Nat) : CState × List Nat :=
  if s0 &&& 0xFFFF ≠ 0 then
    if hw < 0xDC00 ∨ 0xE000 ≤ hw then ((s0 &&& 0xFFFF0000, 0), [CERROR])
    else ((s0 &&& 0xFFFF0000, 0),
          [((hw &&& 0x3FF) ||| ((s0 &&& 0x3FF) <<< 10)) + 0x10000])
  else if 0xDC00 ≤ hw ∧ hw < 0xE000 then ((s0, 0), [CERROR])
  else if 0xD800 ≤ hw ∧ hw < 0xDC00 then ((s0 ||| hw, 0), [])
  else ((s0, 0), [hw])

/-- read_utf16 from utf16.c: accumulate a transport-endianness halfword in s1,
decide the byte order at the first complete halfword, then process
surrogates.  One input byte per call. -/
def read_utf16 (utf : Utf16Data) (input : Nat) (st : CState) : CState × List Nat :=
  let s0 := if st.1 = 0 then utf.s0 else st.1
  if st.2 = 0 then ((s0, 0x100 ||| input), [])
  else
    let hw := ((st.2 &&& 0xFF) <<< 8) + input
    if s0 &&& 0x40000 = 0 then
      let s0a := s0 ||| 0x40000
      if hw = 0xFEFF ∧ s0a &&& 0x20000 ≠ 0 then ((s0a &&& 0xFFFEFFFF, 0), [])
      else if hw = 0xFFFE ∧ s0a &&& 0x10000 ≠ 0 then ((s0a &&& 0xFFFDFFFF, 0), [])
      else
        let s0b := if s0a &&& 0x30000 = 0x30000 then s0a &&& 0xFFFEFFFF else s0a
        let hw2 := if s0b &&& 0x10000 ≠ 0 then ((hw >>> 8) ||| (hw <<< 8)) &&& 0xFFFF else hw
        utf16_process s0b hw2
    else
      let hw2 := if s0 &&& 0x10000 ≠ 0 then ((hw >>> 8) ||| (hw <<< 8)) &&& 0xFFFF else hw
      utf16_process s0 hw2

/-- Decode a whole byte list with read_utf16. -/
def utf16_decode_bytes (utf : Utf16Data) : CState → List Nat → CState × List Nat :=
  runBytes (read_utf16 utf)

/-- emithl from utf16.c: emit one halfword as two bytes, big-endian first when
the BE bit of the parameter block is set. -/
def emithl (s0 hw : Nat) : List Nat :=
  let h := (hw >>> 8) &&& 0xFF
  let l := hw &&& 0xFF
  if s0 &&& 0x20000 ≠ 0 then [h, l] else [l, h]

/-- write_utf16 from utf16.c: s0 = 0 means no output yet (a BOM must be
written first), s0 = 1 means off and running.  Returns the C function's
boolean result together with the new state and the emitted bytes. -/
def write_utf16 (utf : Utf16Data) (input : Int) (st : CState) : Bool × CState × List Nat :=
  if input < 0 then (true, st, [])
  else
    let u := input.toNat
    if (0xD800 ≤ u ∧ u < 0xE000) ∨ 0x110000 ≤ u then (false, st, [])
    else
      let s0 := if st.1 = 0 then 1 else st.1
      let bom : List Nat := if st.1 = 0 then emithl utf.s0 0xFEFF else []
      if u < 0x10000 then (true, (s0, st.2), bom ++ emithl utf.s0 u)
      else
        let v := u - 0x10000
        (true, (s0, st.2),
         bom ++ emithl utf.s0 (0xD800 ||| ((v >>> 10) &&& 0x3FF))
             ++ emithl utf.s0 (0xDC00 ||| (v &&& 0x3FF)))

example : utf16_decode_bytes utf16_variable_endianness (0, 0) [0xFE, 0xFF, 0x00, 0x41]
    = ((0x60000, 0), [0x41]) := by decide

example : utf16_decode_bytes utf16_bigendian (0, 0) [0xD8, 0x00, 0x00, 0x41]
    = ((0x60000, 0), [0xFFFF]) := by decide

example : write_utf16 utf16_bigendian 0x10000 (0, 0)
    = (true, (1, 0), [0xFE, 0xFF, 0xD8, 0x00, 0xDC, 0x00]) := by decide

/-!
UTF-7 codec (src/utf7.c).  The 128-entry character-property table is copied
from the source ("1 = Set D, 2 = Set O, 4 = Set B").
-/

def utf7_ascii_properties : List Nat :=
  [2,2,2,2,2,2,2,2,2,2,2,2,2,2,2,2,2,2,2,2,2,2,2,2,2,2,2,2,2,2,2,2,
   3,2,2,2,2,2,2,1,1,1,2,4,1,1,1,5,5,5,5,5,5,5,5,5,5,5,1,2,2,2,2,1,
   2,5,5,5,5,5,5,5,5,5,5,5,5,5,5,5,5,5,5,5,5,5,5,5,5,5,5,2,0,2,2,2,
   2,5,5,5,5,5,5,5,5,5,5,5,5,5,5,5,5,5,5,5,5,5,5,5,5,5,5,2,2,2,0,0]

/-- SET_D macro on a code point given as Int (the C long). -/
def setD (c : Int) : Bool :=
  0 ≤ c && c < 0x80 && (utf7_ascii_properties.getD c.toNat 0) &&& 1 ≠ 0

/-- SET_O macro. -/
def setO (c : Int) : Bool :=
  0 ≤ c && c < 0x80 && (utf7_ascii_properties.getD c.toNat 0) &&& 2 ≠ 0

/-- SET_B macro, on an input byte. -/
def setB (c : Nat) : Bool :=
  c < 0x80 && (utf7_ascii_properties.getD c 0) &&& 4 ≠ 0

/-- base64_value macro. -/
def base64_value (c : Nat) : Nat :=
  if 0x41 ≤ c ∧ c ≤ 0x5A then c - 0x41
  else if 0x61 ≤ c ∧ c ≤ 0x7A then c - 0x61 + 26
  else if 0x30 ≤ c ∧ c ≤ 0x39 then c - 0x30 + 52
  else if c = 0x2B then 62 else 63

/-- The base64_chars string "A-Za-z0-9+/" as ASCII codes. -/
def base64_chars : List Nat :=
  ((List.range 26).map (fun k => 0x41 + k)) ++
  ((List.range 26).map (fun k => 0x61 + k)) ++
  ((List.range 10).map (fun k => 0x30 + k)) ++ [0x2B, 0x2F]

/-- read_utf7 from utf7.c: s0 = 0 is ASCII mode, s0 = 2 means "just saw +",
otherwise s0 holds a 1 sentinel followed by accumulated base64 bits; s1 holds
a pending high surrogate. -/
def read_utf7 (input : Nat) (st : CState) : CState × List Nat :=
  if st.1 = 0 then
    if input = 0x2B then ((2, st.2), []) else ((0, st.2), [input])
  else if ¬ setB input then
    if input ≠ 0x2D then ((0, st.2), [input])
    else if st.1 = 2 then ((0, st.2), [0x2B])
    else ((0, st.2), [])
  else
    let s0a := if st.1 = 2 then 1 else st.1
    let s0b := (s0a <<< 6) ||| base64_value input
    if s0b &&& 0xFFFF0000 = 0 then ((s0b, st.2), [])
    else
      let hw := if s0b &&& 0x00100000 ≠ 0 then (s0b >>> 4) &&& 0xFFFF
                else if s0b &&& 0x00040000 ≠ 0 then (s0b >>> 2) &&& 0xFFFF
                else s0b &&& 0xFFFF
      let s0c := if s0b &&& 0x00100000 ≠ 0 then (s0b &&& 0xF) ||| 0x10
                 else if s0b &&& 0x00040000 ≠ 0 then (s0b &&& 3) ||| 4
                 else 1
      if st.2 ≠ 0 then
        if hw < 0xDC00 ∨ 0xE000 ≤ hw then ((s0c, 0), [CERROR])
        else ((s0c, 0), [((hw &&& 0x3FF) ||| ((st.2 &&& 0x3FF) <<< 10)) + 0x10000])
      else if 0xDC00 ≤ hw ∧ hw < 0xE000 then ((s0c, st.2), [CERROR])
      else if 0xD800 ≤ hw ∧ hw < 0xDC00 then ((s0c, hw), [])
      else ((s0c, st.2), [hw])

/-- Decode a whole byte list with read_utf7. -/
def utf7_decode_bytes : CState → List Nat → CState × List Nat :=
  runBytes read_utf7

/-- One unrolling layer of the base64 bit-output loop at the end of
write_utf7 (while s1 >= 6).  Each pass of the C loop lowers s1 by exactly 6,
so the loop runs exactly s1 / 6 times; the first argument is that count,
which keeps the recursion structural. -/
def utf7_b64go : Nat → Nat → Nat → Nat × Nat × List Nat
  | 0, s0, s1 => (s0, s1, [])
  | fuel + 1, s0, s1 =>
    if 6 ≤ s1 then
      let out := (s0 >>> (s1 - 6)) &&& 0x3F
      let s1a := s1 - 6
      let topbit := 1 <<< s1a
      let s0a := (s0 &&& (topbit - 1)) ||| topbit
      let r := utf7_b64go fuel s0a s1a
      (r.1, r.2.1, base64_chars.getD out 0 :: r.2.2)
    else (s0, s1, [])

/-- The base64 bit-output loop of write_utf7: emit six bits at a time while
at least six bits are accumulated. -/
def utf7_b64loop (s0 s1 : Nat) : Nat × Nat × List Nat :=
  utf7_b64go (s1 / 6) s0 s1

/-- Accumulate the halfwords of write_utf7 (the for loop over hws). -/
def utf7_writehws (s0 s1 : Nat) : List Nat → Nat × Nat × List Nat
  | [] => (s0, s1, [])
  | hw :: rest =>
    let r := utf7_b64loop ((s0 <<< 16) ||| hw) (s1 + 16)
    let r2 := utf7_writehws r.1 r.2.1 rest
    (r2.1, r2.2.1, r.2.2 ++ r2.2.2)

/-- write_utf7 from utf7.c.  The C function is declared void (it never
returns a success flag, unlike every other codec writer and unlike the
write contract documented in internal.h); it signals an unrepresentable
character by emitting the ERROR sentinel 0xFFFF through the byte-emit
callback.  isUtf7 distinguishes CS_UTF7 (true) from CS_UTF7_CONSERVATIVE. -/
def write_utf7 (isUtf7 : Bool) (input : Int) (st : CState) : CState × List Nat :=
  if (0xD800 ≤ input ∧ input < 0xE000) ∨ 0x110000 ≤ input then (st, [CERROR])
  else if input = -1 ∨ setD input ∨ (isUtf7 ∧ setO input) then
    let flushed : List Nat :=
      if st.1 ≠ 0 then
        let s0a := st.1 <<< (6 - st.2)
        [base64_chars.getD (s0a &&& 0x3F) 0, 0x2D]
      else []
    let sta : CState := if st.1 ≠ 0 then (0, 0) else st
    if input ≠ -1 then (sta, flushed ++ [input.toNat]) else (sta, flushed)
  else
    let hws : List Nat :=
      if input < 0x10000 then [input.toNat]
      else
        let v := (input - 0x10000).toNat
        [0xD800 ||| ((v >>> 10) &&& 0x3FF), 0xDC00 ||| (v &&& 0x3FF)]
    if 0x10000 ≤ input ∧ 0x100000 ≤ (input - 0x10000) then (st, [CERROR])
    else
      let s0 := if st.1 = 0 then 1 else st.1
      let s1 := if st.1 = 0 then 0 else st.2
      let pre : List Nat := if st.1 = 0 then [0x2B] else []
      let r := utf7_writehws s0 s1 hws
      ((r.1, r.2.1), pre ++ r.2.2)

example : utf7_decode_bytes (0, 0) [0x2B, 0x41, 0x43, 0x49, 0x2D, 0x48, 0x69]
    = ((0, 0), [0x22, 0x48, 0x69]) := by decide

example : read_utf7 0x2B (0, 0) = ((2, 0), []) := by decide

example : read_utf7 0x2D (2, 0) = ((0, 0), [0x2B]) := by decide

example : write_utf7 true 0x22 (0, 0) = ((0, 0), [0x22]) := by decide

example : write_utf7 true 0x4E00 (0, 0) = ((0x10, 4), [0x2B, 0x54, 0x67]) := by decide

example : write_utf7 true (-1) (0x10, 4) = ((0, 0), [0x41, 0x2D]) := by decide

example : write_utf7 true 0xD800 (0, 0) = ((0, 0), [0xFFFF]) := by decide

/-!
Big5 and CP949 codecs (src/big5enc.c, src/cp949.c).  The DBCS translation
tables (big5_to_unicode and friends) are generated data living outside the
codec sources, so they are taken as function parameters here.
-/

/-- read_big5 from big5enc.c: s0 holds the pending lead byte or 0. -/
def read_big5 (big5_to_unicode : Nat → Nat → Nat) (input : Nat) (st : CState) :
    CState × List Nat :=
  if st.1 = 0 then
    if 0xA1 ≤ input ∧ input ≤ 0xFE then ((input, st.2), [])
    else ((st.1, st.2), [input])
  else
    if (0x40 ≤ input ∧ input ≤ 0x7E) ∨ (0xA1 ≤ input ∧ input ≤ 0xFE) then
      ((0, st.2), [big5_to_unicode (st.1 - 0xA1) (input - 0x40)])
    else ((0, st.2), [CERROR])

/-- write_big5 from big5enc.c. -/
def write_big5 (unicode_to_big5 : Nat → Option (Nat × Nat)) (input : Int)
    (st : CState) : Bool × CState × List Nat :=
  if input = -1 then (true, st, [])
  else if input < 0x80 then (true, st, [input.toNat])
  else
    match unicode_to_big5 input.toNat with
    | some (r, c) => (true, st, [r + 0xA1, c + 0x40])
    | none => (false, st, [])

/-- read_cp949 from cp949.c: s0 holds the pending lead byte or 0. -/
def read_cp949 (cp949_to_unicode : Nat → Nat → Nat) (input : Nat) (st : CState) :
    CState × List Nat :=
  if st.1 = 0 then
    if 0x81 ≤ input ∧ input ≤ 0xFE then ((input, st.2), [])
    else ((st.1, st.2), [input])
  else
    if 0x40 ≤ input ∧ input ≤ 0xFF then
      ((0, st.2), [cp949_to_unicode (st.1 - 0x80) (input - 0x40)])
    else ((0, st.2), [CERROR])

/-!
EUC codecs (src/euc.c).  struct euc carries the per-variant byte counts for
the GR / SS2 / SS3 announcers and the translation functions; the CNS 11643
tables used by EUC-TW are generated data outside the codec sources, so they
are again taken as parameters.
-/

/-- The struct euc parameter block. -/
structure EucData where
  nchars : List Nat
  to_ucs : Nat → Nat
  from_ucs : Nat → Nat

/-- read_euc from euc.c: the top nibble of s0 is the announcer class
(1 = GR, 2 = SS2, 3 = SS3), the next nibble counts accumulated bytes, and
the low 24 bits hold those bytes. -/
def read_euc (euc : EucData) (input : Nat) (st : CState) : CState × List Nat :=
  let step1 : Nat × List Nat :=
    if st.1 ≠ 0 then
      if input < 0xA1 ∨ input = 0xFF then (0, [CERROR])
      else (((st.1 &&& 0xFF000000) + 0x01000000) |||
            ((st.1 &&& 0x0000FFFF) <<< 8) ||| input, [])
    else (st.1, [])
  let step2 : Nat × List Nat :=
    if step1.1 = 0 then
      if input < 0x80 then (0, [input])
      else if input = 0x8E then (0x20000000, [])
      else if input = 0x8F then (0x30000000, [])
      else if input < 0xA1 ∨ input = 0xFF then (0, [CERROR])
      else (0x11000000 ||| input, [])
    else (step1.1, [])
  if step2.1 ≠ 0 ∧
     euc.nchars.getD ((step2.1 >>> 28) - 1) 0 ≤ (step2.1 &&& 0x0F000000) >>> 24 then
    ((0, st.2), step1.2 ++ step2.2 ++ [euc.to_ucs step2.1])
  else ((step2.1, st.2), step1.2 ++ step2.2)

/-- Emit the low len bytes of c, highest first (the while (len--) loop of
write_euc). -/
def emitBytesBE (c : Nat) : Nat → List Nat
  | 0 => []
  | l + 1 => ((c >>> (8 * l)) &&& 0xFF) :: emitBytesBE c l

/-- write_euc from euc.c. -/
def write_euc (euc : EucData) (input : Int) (st : CState) : Bool × CState × List Nat :=
  if input = -1 then (true, st, [])
  else if input < 0x80 then (true, st, [input.toNat])
  else
    let c := euc.from_ucs input.toNat
    if c = 0 then (false, st, [])
    else
      let cset := c >>> 28
      let len := euc.nchars.getD (cset - 1) 0
      let cl := c &&& 0xFFFFFF
      let pre : List Nat := if 1 < cset then [0x8C + cset] else []
      (true, st, pre ++ emitBytesBE cl len)

/-- euc_tw_to_ucs from euc.c, with the cns11643_to_unicode table abstracted:
announcer class 1 is plane 0 of CNS 11643; class 2 (SS2) reads a plane
number out of the accumulated bytes.  Note that the source computes the
plane from (state >> 8) & 0xFF, which is the row byte, not the plane byte
stored at bits 23:16 by euc_tw_from_ucs. -/
def euc_tw_to_ucs (cns : Nat → Nat → Nat → Nat) (state : Nat) : Nat :=
  if state >>> 28 = 1 then
    cns 0 (((state >>> 8) &&& 0xFF) - 0xA1) ((state &&& 0xFF) - 0xA1)
  else if state >>> 28 = 2 then
    let plane := ((state >>> 8) &&& 0xFF) - 0xA1
    if 7 ≤ plane then CERROR
    else cns plane (((state >>> 8) &&& 0xFF) - 0xA1) ((state &&& 0xFF) - 0xA1)
  else CERROR

/-- euc_tw_from_ucs from euc.c, with unicode_to_cns11643 abstracted. -/
def euc_tw_from_ucs (cnsInv : Nat → Option (Nat × Nat × Nat)) (ucs : Nat) : Nat :=
  match cnsInv ucs with
  | some (p, r, c) =>
    if p = 0 then 0x10000000 ||| ((r + 0xA1) <<< 8) ||| (c + 0xA1)
    else 0x20000000 ||| ((p + 0xA1) <<< 16) ||| ((r + 0xA1) <<< 8) ||| (c + 0xA1)
  | none => 0

/-- The struct euc instance euc_tw, over abstract CNS 11643 tables. -/
def eucTWData (cns : Nat → Nat → Nat → Nat) (cnsInv : Nat → Option (Nat × Nat × Nat)) :
    EucData :=
  ⟨[2, 3, 0], euc_tw_to_ucs cns, euc_tw_from_ucs cnsInv⟩

/-- Decode a whole byte list with read_euc. -/
def euc_decode_bytes (euc : EucData) : CState → List Nat → CState × List Nat :=
  runBytes (read_euc euc)

/-!
HZ codec (hz.c).  The GB2312 tables are generated data outside the codec
sources and are taken as parameters.
-/

/-- read_hz from hz.c: s0 is 0 in ASCII mode and 1 in GB2312 mode; s1 holds
a seen-but-unprocessed byte.  In ASCII mode a tilde followed by a byte that
is none of tilde, newline or an opening brace falls out of the C switch and
emits nothing. -/
def read_hz (gb2312_to_unicode : Nat → Nat → Nat) (input : Nat) (st : CState) :
    CState × List Nat :=
  if st.1 = 0 then
    if st.2 ≠ 0 then
      if input = 0x7E then ((0, 0), [input])
      else if input = 0x0A then ((0, 0), [])
      else if input = 0x7B then ((1, 0), [])
      else ((0, 0), [])
    else if input = 0x7E then ((0, 0x7E), [])
    else ((0, 0), [input])
  else
    if input < 0x21 ∨ 0x7E < input then ((0, 0), [CERROR])
    else if st.2 = 0 then ((1, input), [])
    else if st.2 = 0x7E ∧ input = 0x7D then ((0, 0), [])
    else ((1, 0), [gb2312_to_unicode (st.2 - 0x21) (input - 0x21)])

/-- Decode a whole byte list with read_hz. -/
def hz_decode_bytes (gb : Nat → Nat → Nat) : CState → List Nat → CState × List Nat :=
  runBytes (read_hz gb)

/-- write_hz from hz.c: ASCII-representable characters (including the -1
flush input, which takes the input_chr < 0x80 branch) drive the encoder to
ASCII mode, emitting the closing escape if needed; GB2312-representable
characters drive it to GB2312 mode. -/
def write_hz (unicode_to_gb2312 : Nat → Option (Nat × Nat)) (input : Int)
    (st : CState) : Bool × CState × List Nat :=
  if input < 0x80 then
    let pre : List Nat := if st.1 ≠ 0 then [0x7E, 0x7D] else []
    let s0 := if st.1 ≠ 0 then 0 else st.1
    if input < 0 then (true, (s0, st.2), pre)
    else (true, (s0, st.2), pre ++ [input.toNat])
  else
    match unicode_to_gb2312 input.toNat with
    | none => (false, st, [])
    | some (r, c) =>
      let pre : List Nat := if st.1 ≠ 1 then [0x7E, 0x7B] else []
      ((true, (1, st.2), pre ++ [0x21 + r, 0x21 + c]))

example : write_hz (fun _ => some (0x10, 0)) 0x554A (0, 0)
    = (true, (1, 0), [0x7E, 0x7B, 0x31, 0x21]) := by decide

example : write_hz (fun _ => some (0x10, 0)) (-1) (1, 0)
    = (true, (0, 0), [0x7E, 0x7D]) := by decide

/-!
ISO 2022 subset codecs (iso2022s.c): a generic state machine driven by a
per-subset table of escape sequences.  Only the read direction is embedded
(the write direction is not needed by any claim).  The to_ucs translation
functions call the generated JIS X 0208 / KS X 1001 tables, which live
outside the codec sources, so read_iso2022s takes to_ucs as a parameter.
-/

/-- One struct iso2022_escape entry (the output-only container/subcharset
fields are omitted; only the read direction is embedded). -/
structure Iso2022Escape where
  seq : List Nat
  andbits : Nat
  xorbits : Nat

/-- The read-relevant fields of struct iso2022. -/
structure Iso2022Data where
  escapes : List Iso2022Escape
  nbytes : List Nat
  s1init : Nat
  eightbit : Bool

/-- Read byte k of a NUL-terminated escape sequence: past the end of the
stored list stands for the terminating NUL. -/
def seqGet (e : List Nat) (k : Nat) : Nat := e.getD k 0

/-- memcmp equality of the first n bytes of two stored sequences. -/
def memcmpEq (a b : List Nat) : Nat → Bool
  | 0 => true
  | n + 1 => memcmpEq a b n && (seqGet a n == seqGet b n)

/-- The escape-narrowing while loop of read_iso2022s (iso2022s.c lines
178-186): j scans forward from i while entry j still matches the swallowed
prefix; i advances past entries whose next byte is below the input byte.
The C loop increases j by one each pass, so it runs at most
(number of escapes - j) times; the first argument is that count, keeping
the recursion structural. -/
def iso2022s_scanGo (iso : Iso2022Data) (oiSeq : List Nat) (n input : Nat) :
    Nat → Nat → Nat → Nat
  | 0, i, _ => i
  | fuel + 1, i, j =>
    if j < iso.escapes.length then
      let ej := (iso.escapes.getD j ⟨[], 0, 0⟩).seq
      if memcmpEq ej oiSeq n then
        if seqGet ej n < input then iso2022s_scanGo iso oiSeq n input fuel (j + 1) (j + 1)
        else i
      else i
    else i

def iso2022s_scan (iso : Iso2022Data) (oiSeq : List Nat) (n input i j : Nat) : Nat :=
  iso2022s_scanGo iso oiSeq n input (iso.escapes.length - j) i j

/-- The no-match test of read_iso2022s (iso2022s.c lines 187-190): the
narrowed index is out of the table, or its entry no longer shares the
swallowed prefix, or its next byte is not the input byte. -/
def iso2022s_noMatch (iso : Iso2022Data) (oiSeq : List Nat) (n input i2 : Nat) : Bool :=
  decide (i2 ≥ iso.escapes.length) ||
  ! memcmpEq (iso.escapes.getD i2 ⟨[], 0, 0⟩).seq oiSeq n ||
  decide (seqGet (iso.escapes.getD i2 ⟨[], 0, 0⟩).seq n ≠ input)

/-- The escape-sequence part of read_iso2022s (iso2022s.c lines 157-224):
flush any half-accumulated character as an error, then narrow the escape
table; on a byte that cannot extend any escape, emit the swallowed prefix
and the byte verbatim and clear the escape state; on a complete match apply
the AND/XOR bits to s1; otherwise remember the new prefix in s0. -/
def iso2022s_escape (iso : Iso2022Data) (input : Nat) (s0 s1 : Nat) :
    CState × List Nat :=
  let n := (s0 >>> 24) &&& 7
  let i := s0 >>> 27
  let midchar := s1 &&& 0x0F000000 ≠ 0
  let s1a :=
    if midchar then
      let s1m := s1 &&& 0xF0FFFFFF
      if s1m &&& 0x60000000 ≠ 0 then s1m &&& 0x9FFFFFFF else s1m
    else s1
  let err : List Nat := if midchar then [CERROR] else []
  let oiSeq := (iso.escapes.getD i ⟨[], 0, 0⟩).seq
  let i2 := iso2022s_scan iso oiSeq n input i i
  if iso2022s_noMatch iso oiSeq n input i2 then
    ((0, s1a), err ++ (List.range n).map (seqGet oiSeq) ++ [input])
  else
    let e := iso.escapes.getD i2 ⟨[], 0, 0⟩
    let n2 := n + 1
    if seqGet e.seq n2 = 0 then ((0, (s1a &&& e.andbits) ^^^ e.xorbits), err)
    else (((i2 <<< 27) ||| (n2 <<< 24), s1a), err)

/-- read_iso2022s from iso2022s.c.  s1 bit 31 is the initialised flag, bits
30:28 the selected container, bits 27:24 the count of accumulated character
bytes, and four six-bit fields the subcharset of each container; the low 24
bits of s0 accumulate character data and its top byte tracks escape
sequences. -/
def read_iso2022s (toUcs : Nat → Nat → Nat) (iso : Iso2022Data) (input : Nat)
    (st : CState) : CState × List Nat :=
  let s1 := if st.2 &&& 0x80000000 = 0 then iso.s1init else st.2
  let s0 := st.1
  if s0 >>> 24 ≠ 0 ∨ input = 0x0E ∨ input = 0x0F ∨ input = 0x1B then
    iso2022s_escape iso input s0 s1
  else if input < 0x21 ∨ (0x7E < input ∧ (¬ iso.eightbit ∨ input < 0xA0)) then
    if s1 &&& 0x0F000000 ≠ 0 then
      let s1m := s1 &&& 0xF0FFFFFF
      let s0m := s0 &&& 0xFF000000
      let s1e := if s1m &&& 0x60000000 ≠ 0 then s1m &&& 0x9FFFFFFF else s1m
      ((s0m, s1e), [CERROR, input])
    else ((s0, s1), [input])
  else
    let contO := (s1 >>> 28) &&& 7
    let badkind := iso.eightbit ∧
      ((contO = 2 ∧ input &&& 0x80 = 0) ∨
       (contO ≠ 0 ∧ contO ≠ 2 ∧ input &&& 0x80 ≠ 0))
    let s1b :=
      if badkind then
        let s1m := s1 &&& 0xF0FFFFFF
        if s1m &&& 0x60000000 ≠ 0 then s1m &&& 0x9FFFFFFF else s1m
      else s1
    let s0b := if badkind then s0 &&& 0xFF000000 else s0
    let err : List Nat := if badkind then [CERROR] else []
    let s1c := if iso.eightbit ∧ contO = 0 ∧ input &&& 0x80 ≠ 0
               then s1b ||| 0x20000000 else s1b
    let chr := ((s0b &&& 0x00FFFFFF) <<< 8) ||| (input &&& 0x7F)
    let chrlen := ((s1c >>> 24) &&& 0xF) + 1
    let cont := let c := (s1c >>> 28) &&& 7; if 1 < c then c >>> 1 else c
    let subcharset := (s1c >>> (6 * cont)) &&& 0x3F
    let bytes := iso.nbytes.getD subcharset 0
    if bytes ≤ chrlen then
      let s1d := if s1c &&& 0x60000000 ≠ 0 then s1c &&& 0x9FFFFFFF else s1c
      ((s0b &&& 0xFF000000, (s1d &&& 0xF0FFFFFF)),
       err ++ [toUcs subcharset chr])
    else ((s0b &&& 0xFF000000 ||| chr, (s1c &&& 0xF0FFFFFF) ||| (chrlen <<< 24)),
          err)

/-- The iso2022jp_escapes table (sequences as byte lists, with the AND and
XOR masks applied to s1 on a full match). -/
def iso2022jp_escapes : List Iso2022Escape :=
  [⟨[0x1B, 0x24, 0x40], 0xFFFFFFC0, 0x00000002⟩,
   ⟨[0x1B, 0x24, 0x42], 0xFFFFFFC0, 0x00000002⟩,
   ⟨[0x1B, 0x28, 0x42], 0xFFFFFFC0, 0x00000000⟩,
   ⟨[0x1B, 0x28, 0x4A], 0xFFFFFFC0, 0x00000001⟩]

/-- The struct iso2022 for ISO-2022-JP (RFC 1468). -/
def iso2022jp : Iso2022Data := ⟨iso2022jp_escapes, [1, 1, 2], 0x80000000, false⟩

/-- The iso2022kr_escapes table: SO, SI and the ESC $ ) C designation. -/
def iso2022kr_escapes : List Iso2022Escape :=
  [⟨[0x0E], 0x8FFFFFFF, 0x10000000⟩,
   ⟨[0x0F], 0x8FFFFFFF, 0x00000000⟩,
   ⟨[0x1B, 0x24, 0x29, 0x43], 0xFFFFF03F, 0x00000040⟩]

/-- The struct iso2022 for ISO-2022-KR (RFC 1557). -/
def iso2022kr : Iso2022Data := ⟨iso2022kr_escapes, [1, 2], 0x80000040, false⟩

/-- A byte b extends the swallowed prefix pfx when some escape sequence of
the subset starts with pfx followed by b. -/
def escExtendable (iso : Iso2022Data) (pfx : List Nat) (b : Nat) : Bool :=
  iso.escapes.any (fun e => (pfx ++ [b]).isPrefixOf e.seq)

example : read_iso2022s (fun _ c => c) iso2022jp 0x1B (0, 0)
    = ((0x01000000, 0x80000000), []) := by decide

example : read_iso2022s (fun _ c => c) iso2022jp 0x24 (0x01000000, 0x80000000)
    = ((0x02000000, 0x80000000), []) := by decide

example : read_iso2022s (fun _ c => c) iso2022jp 0x42 (0x02000000, 0x80000000)
    = ((0, 0x80000002), []) := by decide

example : read_iso2022s (fun _ c => c) iso2022jp 0x5A (0x01000000, 0x80000000)
    = ((0, 0x80000000), [0x1B, 0x5A]) := by decide

example : read_iso2022s (fun _ c => c) iso2022jp 0x28 (0x01000000, 0x80000000)
    = ((0x12000000, 0x80000000), []) := by decide

example : read_iso2022s (fun _ c => c) iso2022kr 0x1B (0, 0)
    = ((0x11000000, 0x80000040), []) := by decide

example : escExtendable iso2022jp [0x1B] 0x24 = true := by decide

example : escExtendable iso2022jp [0x1B] 0x5A = false := by decide

/-!
Modelled tables.  The generated DBCS tables are repository data that is not
among the codec sources, so where a closed counterexample needs one concrete
entry, a minimal table is modelled from the spec.
-/

/-- Modelled from the spec: the GB2312 table is generated data not among the
codec sources; the spec scenario "HZ decode ~\x7b B1 A1 ~\x7d A emits U+554A"
fixes the single pair row 0x10, column 0 (bytes B1 A1) to U+554A, which is
all this model defines. -/
def gb2312_to_unicode_model (r c : Nat) : Nat :=
  if r = 0x10 ∧ c = 0 then 0x554A else CERROR

/-- Modelled from the spec: the CNS 11643 tables are generated data not
among the codec sources; the spec says they map Unicode to (plane, row,
column) triples and back.  This model defines one plane-2 character
(p = 1, r = 7, c = 0, standing for any plane-2 character with row index at
least 7) mapping to U+4E00. -/
def cns11643_to_unicode_model (p r c : Nat) : Nat :=
  if p = 1 ∧ r = 7 ∧ c = 0 then 0x4E00 else CERROR

/-- Modelled from the spec: inverse of cns11643_to_unicode_model. -/
def unicode_to_cns11643_model (u : Nat) : Option (Nat × Nat × Nat) :=
  if u = 0x4E00 then some (1, 7, 0) else none

/-- The euc_tw codec instantiated with the modelled CNS 11643 tables. -/
def euc_tw_model : EucData :=
  eucTWData cns11643_to_unicode_model unicode_to_cns11643_model

/-!
Claims.
-/

/-- C1: the claim says every codec's encoder returns false for an
unrepresentable code point without having called emit at all, and in
particular never emits the 0xFFFF sentinel.  The UTF-7 encoder violates
this: write_utf7 in utf7.c is declared void (it cannot return false, unlike
the int-returning write contract documented in internal.h), and for a
surrogate such as U+D800 it calls emit with the ERROR sentinel 0xFFFF, in
both the CS_UTF7 and CS_UTF7_CONSERVATIVE variants and from every state. -/
theorem C1_write_utf7_emits_error_sentinel :
    ∀ (isUtf7 : Bool) (st : CState), write_utf7 isUtf7 0xD800 st = (st, [0xFFFF]) :=
  fun _ _ => rfl

/-- C2 counterexample: finalizing the UTF-16BE encoder does not drive the
state back to (0,0): after encoding U+0041 the state is (1,0) (BOM already
emitted); finalize returns true but leaves it at (1,0), and a subsequent
U+0042 is encoded without the BOM that a fresh state would produce. -/
theorem C2_counterexample_utf16_finalize :
    write_utf16 utf16_bigendian 0x41 (0, 0) = (true, (1, 0), [0xFE, 0xFF, 0x00, 0x41])
    ∧ write_utf16 utf16_bigendian (-1) (1, 0) = (true, (1, 0), [])
    ∧ ((1, 0) : CState) ≠ ((0, 0) : CState)
    ∧ (write_utf16 utf16_bigendian 0x42 (1, 0)).2.2
        ≠ (write_utf16 utf16_bigendian 0x42 (0, 0)).2.2 := by
  refine ⟨by decide, by decide, by decide, by decide⟩

/-- C2 (amended): finalizing with input -1 always returns true, and the HZ
encoder does restore the initial state (0,0) from every reachable state
(its reachable states have s0 in 0..1 and s1 = 0), emitting the closing
escape when in GB2312 mode; but the UTF-16 encoder's finalize performs no
cleanup at all: it returns true with no output and leaves the state, in
particular the BOM-already-emitted flag s0 = 1, unchanged, so finalize does
not restore the initial state and a later character is not preceded by a
fresh BOM. -/
theorem C2_amended_finalize :
    (∀ (gbInv : Nat → Option (Nat × Nat)) (s0 : Nat), s0 ≤ 1 →
        write_hz gbInv (-1) (s0, 0)
          = (true, (0, 0), if s0 = 0 then [] else [0x7E, 0x7D]))
    ∧ ∀ (utf : Utf16Data) (st : CState), write_utf16 utf (-1) st = (true, st, []) := by
  constructor
  · intro gbInv s0 h
    interval_cases s0 <;> rfl
  · intro utf st
    rfl

/-- C2 witness: the amended finalize behaviour at the concrete reachable
states (1,0) for HZ (GB2312 mode) and (1,0) for UTF-16BE. -/
theorem C2_amended_finalize_witness :
    write_hz (fun _ => none) (-1) (1, 0) = (true, (0, 0), [0x7E, 0x7D])
    ∧ write_utf16 utf16_bigendian (-1) (1, 0) = (true, (1, 0), []) := by
  constructor
  · have h := C2_amended_finalize.1 (fun _ => none) 1 (by decide)
    simpa using h
  · exact C2_amended_finalize.2 utf16_bigendian (1, 0)

/-- C3 counterexample: big-endian UTF-16 input D8 00 00 41 emits only
U+FFFF, not U+FFFF followed by U+0041 — the halfword 0x0041 arriving after
the stored high surrogate is consumed by the error, not reprocessed. -/
theorem C3_counterexample_no_reprocess :
    utf16_decode_bytes utf16_bigendian (0, 0) [0xD8, 0x00, 0x00, 0x41]
      = ((0x60000, 0), [0xFFFF])
    ∧ ([0xFFFF] : List Nat) ≠ [0xFFFF, 0x41] := by
  refine ⟨by decide, by decide⟩

/-- C4: the claim says a complete EUC-TW SS2 sub-stream 8E, A1+p, A1+r,
A1+c decodes to the CNS 11643 mapping of plane p, row r, column c.  The
code instead derives the plane from the row byte: euc_tw_to_ucs reads
((state >> 8) & 0xFF) - 0xA1 (the row byte) where the plane byte sits at
bits 23:16, so the bytes 8E A2 A3 A4 (p = 1, r = 2, c = 3) decode to
cns11643_to_unicode(2, 2, 3) instead of cns11643_to_unicode(1, 2, 3),
whatever the CNS 11643 table is. -/
theorem C4_eucTW_plane_from_row_byte :
    ∀ (cns : Nat → Nat → Nat → Nat) (cnsInv : Nat → Option (Nat × Nat × Nat)),
      euc_decode_bytes (eucTWData cns cnsInv) (0, 0) [0x8E, 0xA2, 0xA3, 0xA4]
        = ((0, 0), [cns 2 2 3]) := by
  intro cns cnsInv
  simp +decide [euc_decode_bytes, runBytes, read_euc, eucTWData, euc_tw_to_ucs, CERROR]
  congr

/-- C5 counterexample: HZ decoding of 7E 7B B1 A1 7E 7D 41 does not emit
U+554A and U+0041.  B1 is outside the 0x21..0x7E range the GB2312 mode of
the decoder accepts, so it produces U+FFFF and drops back to ASCII mode;
A1 then passes through; the now-unpaired ~\x7d is swallowed; A emits. -/
theorem C5_counterexample_hz :
    hz_decode_bytes gb2312_to_unicode_model (0, 0)
        [0x7E, 0x7B, 0xB1, 0xA1, 0x7E, 0x7D, 0x41]
      = ((0, 0), [0xFFFF, 0xA1, 0x41])
    ∧ ([0xFFFF, 0xA1, 0x41] : List Nat) ≠ [0x554A, 0x41] := by
  refine ⟨by decide, by decide⟩

/-- C5 (amended): HZ decoding of the byte sequence 7E 7B B1 A1 7E 7D 41
from the initial state emits exactly U+FFFF, U+00A1, U+0041, independently
of the GB2312 table: B1 is rejected in GB2312 mode (it is outside
0x21..0x7E), emitting U+FFFF and returning to ASCII mode; A1 then passes
through unchanged; the tilde of ~\x7d is held and the unmatched \x7d is
silently dropped; finally A is emitted. -/
theorem C5_amended_hz_decode :
    ∀ gb : Nat → Nat → Nat,
      hz_decode_bytes gb (0, 0) [0x7E, 0x7B, 0xB1, 0xA1, 0x7E, 0x7D, 0x41]
        = ((0, 0), [0xFFFF, 0xA1, 0x41]) :=
  fun _ => rfl

/-- C6: the claim says encoding any representable scalar and decoding the
result yields that scalar, for every encoding.  EUC-TW violates this: with
the modelled CNS 11643 table mapping U+4E00 to plane 2 (p = 1), row 7,
column 0, write_euc emits 8E A2 A8 A1 (SS2, then plane, row and column
bytes), but read_euc hands the accumulated bytes to euc_tw_to_ucs, which
takes the row byte A8 for the plane, finds 0xA8 - 0xA1 = 7 not below 7, and
emits U+FFFF instead of U+4E00. -/
theorem C6_eucTW_roundtrip_fails :
    write_euc euc_tw_model 0x4E00 (0, 0) = (true, (0, 0), [0x8E, 0xA2, 0xA8, 0xA1])
    ∧ euc_decode_bytes euc_tw_model (0, 0) [0x8E, 0xA2, 0xA8, 0xA1]
        = ((0, 0), [0xFFFF])
    ∧ ([0xFFFF] : List Nat) ≠ [0x4E00] := by
  refine ⟨by decide, by decide, by decide⟩

/-- C8: in UTF-7 decoding, a plus byte received in ASCII mode (s0 = 0)
emits nothing and moves to the just-entered-base64 state s0 = 2; a minus
arriving in that state emits a single literal plus and returns to ASCII
mode (s0 = 0) with no other output; the pending-surrogate word s1 is
untouched throughout. -/
theorem C8_utf7_plus_minus :
    ∀ s1 : Nat, read_utf7 0x2B (0, s1) = ((2, s1), [])
      ∧ read_utf7 0x2D (2, s1) = ((0, s1), [0x2B]) :=
  fun _ => ⟨rfl, rfl⟩

/-- C10: in Big5 and CP949 decoding, any byte arriving in the idle state
(no pending lead byte, s0 = 0) that is outside the lead-byte range
(0xA1..0xFE for Big5, 0x81..0xFE for CP949) is emitted unchanged, and being
a byte below 0x100 it can never be the U+FFFF sentinel. -/
theorem C10_idle_passthrough :
    ∀ (big5tab cp949tab : Nat → Nat → Nat) (b s1 : Nat), b < 0x100 →
    (¬ (0xA1 ≤ b ∧ b ≤ 0xFE) →
        read_big5 big5tab b (0, s1) = ((0, s1), [b]) ∧ b ≠ 0xFFFF)
    ∧ (¬ (0x81 ≤ b ∧ b ≤ 0xFE) →
        read_cp949 cp949tab b (0, s1) = ((0, s1), [b]) ∧ b ≠ 0xFFFF) := by
  intro big5tab cp949tab b s1 hb
  constructor
  · intro h
    refine ⟨?_, by omega⟩
    unfold read_big5
    rw [if_pos rfl, if_neg h]
  · intro h
    refine ⟨?_, by omega⟩
    unfold read_cp949
    rw [if_pos rfl, if_neg h]

/-- C10 witness: the passthrough at the concrete undefined high bytes 0x80
(Big5) and 0xFF (CP949). -/
theorem C10_idle_passthrough_witness :
    (read_big5 (fun _ _ => 0) 0x80 (0, 0) = ((0, 0), [0x80]) ∧ 0x80 ≠ 0xFFFF)
    ∧ (read_cp949 (fun _ _ => 0) 0xFF (0, 0) = ((0, 0), [0xFF]) ∧ 0xFF ≠ 0xFFFF) :=
  ⟨(C10_idle_passthrough (fun _ _ => 0) (fun _ _ => 0) 0x80 0 (by decide)).1 (by decide),
   (C10_idle_passthrough (fun _ _ => 0) (fun _ _ => 0) 0xFF 0 (by decide)).2 (by decide)⟩

/-- A first byte fed to read_utf16 in a running state (s0 already nonzero)
is stored in s1 with the 0x100 marker and emits nothing. -/
theorem read_utf16_first_byte (utf : Utf16Data) (s0 b : Nat) (h : s0 ≠ 0) :
    read_utf16 utf b (s0, 0) = ((s0, 0x100 ||| b), []) := by
  simp [read_utf16, h]

/-- A second byte fed to read_utf16 completes the big-endian transport
halfword when the byte order is already decided (bit 18 of s0 set) as
big-endian (bit 16 clear), and hands it to utf16_process. -/
theorem read_utf16_second_byte (utf : Utf16Data) (s0 b1 b2 : Nat) (h0 : s0 ≠ 0)
    (h1 : b1 < 0x100) (hdec : s0 / 0x40000 % 2 = 1) (hbe : s0 / 0x10000 % 2 = 0) :
    read_utf16 utf b2 (s0, 0x100 + b1) = utf16_process s0 (b1 * 0x100 + b2) := by
  have hne : 0x100 + b1 ≠ 0 := by omega
  have hmod : (0x100 + b1) % 0x100 = b1 := by omega
  simp only [read_utf16, h0, if_neg h0, if_neg hne, nat_and_ff, nat_and_40000,
    nat_and_10000, nat_shiftLeft_8, hdec, hbe, hmod]
  norm_num
  rw [if_neg (show ¬ s0 / 0x40000 % 2 = 0 by omega),
      if_neg (show ¬ s0 / 0x10000 % 2 = 1 by omega)]

/-- utf16_process with a pending surrogate and a halfword that is not a low
surrogate emits exactly one ERROR and clears the pending surrogate, keeping
the endianness bits; the offending halfword is not retained anywhere. -/
theorem utf16_process_pending_err (s0 hw : Nat) (hpend : s0 % 0x10000 ≠ 0)
    (hnl : hw < 0xDC00 ∨ 0xE000 ≤ hw) :
    utf16_process s0 hw = ((s0 / 0x10000 % 0x10000 * 0x10000, 0), [CERROR]) := by
  simp only [utf16_process, nat_and_ffff, nat_and_ffff0000]
  rw [if_pos hpend, if_pos hnl]

/-- C3 (amended): in UTF-16 decoding with the byte order decided as
big-endian and a high surrogate pending (state s0 = 0x60000 + surr), a
complete halfword that is not a low surrogate emits exactly U+FFFF; the
offending halfword is discarded, not reprocessed — the new state
(0x60000, 0) retains nothing of it, so for example big-endian D8 00 00 41
emits U+FFFF alone and not U+FFFF followed by U+0041. -/
theorem C3_amended_halfword_discarded :
    ∀ (utf : Utf16Data) (surr hw : Nat),
      0xD800 ≤ surr → surr < 0xDC00 → hw < 0x10000 →
      ¬ (0xDC00 ≤ hw ∧ hw < 0xE000) →
      utf16_decode_bytes utf (0x60000 + surr, 0) [hw >>> 8, hw &&& 0xFF]
        = ((0x60000, 0), [0xFFFF]) := by
  intro utf surr hw h1 h2 h3 h4
  have hb1 : hw >>> 8 = hw / 0x100 := nat_shiftRight_8 hw
  have hb2 : hw &&& 0xFF = hw % 0x100 := nat_and_ff hw
  have hb1lt : hw / 0x100 < 0x100 := by omega
  have hs0ne : 0x60000 + surr ≠ 0 := by omega
  have e1 : read_utf16 utf (hw / 0x100) (0x60000 + surr, 0)
      = ((0x60000 + surr, 0x100 + hw / 0x100), []) := by
    rw [read_utf16_first_byte utf _ _ hs0ne, nat_or_100 hb1lt]
  have e2 : read_utf16 utf (hw % 0x100) (0x60000 + surr, 0x100 + hw / 0x100)
      = utf16_process (0x60000 + surr) (hw / 0x100 * 0x100 + hw % 0x100) := by
    exact read_utf16_second_byte utf _ _ _ hs0ne hb1lt (by omega) (by omega)
  have ehw : hw / 0x100 * 0x100 + hw % 0x100 = hw := by omega
  have e3 : utf16_process (0x60000 + surr) hw = ((0x60000, 0), [CERROR]) := by
    have h := utf16_process_pending_err (0x60000 + surr) hw (by omega) (by omega)
    have hst : (0x60000 + surr) / 0x10000 % 0x10000 * 0x10000 = 0x60000 := by omega
    rw [h, hst]
  simp only [utf16_decode_bytes, runBytes, hb1, hb2, e1, e2, ehw, e3, CERROR]
  simp

/-- C3 witness: the amended statement at the concrete big-endian input
D8 00 00 41, i.e. pending high surrogate 0xD800 and offending halfword
0x0041. -/
theorem C3_amended_witness :
    utf16_decode_bytes utf16_bigendian (0x60000 + 0xD800, 0) [0x41 >>> 8, 0x41 &&& 0xFF]
      = ((0x60000, 0), [0xFFFF]) :=
  C3_amended_halfword_discarded utf16_bigendian 0xD800 0x41 (by decide) (by decide)
    (by decide) (by decide)

/-- C7 counterexample: in auto-detect mode a first halfword that is a high
surrogate (bytes D8 00) does select big-endian, but it is stored rather
than emitted — the decoder emits nothing for it, against the claim that any
non-BOM first halfword is emitted. -/
theorem C7_counterexample_first_surrogate :
    utf16_decode_bytes utf16_variable_endianness (0, 0) [0xD8, 0x00]
      = ((0x6D800, 0), [])
    ∧ ([] : List Nat) ≠ [0xD800] := by
  refine ⟨by decide, by decide⟩

/-- In auto-detect mode (s0 initial value 0x30000), a first halfword other
than 0xFEFF and 0xFFFE selects big-endian and is processed as an ordinary
big-endian halfword. -/
theorem read_utf16_auto_first_hw (b1 b2 hw : Nat) (hhw : hw < 0x10000)
    (e1 : b1 = hw / 0x100) (e2 : b2 = hw % 0x100)
    (hf : hw ≠ 0xFEFF) (hf2 : hw ≠ 0xFFFE) :
    read_utf16 utf16_variable_endianness b2 (0x30000, 0x100 + b1)
      = utf16_process 0x60000 hw := by
  have hne : 0x100 + b1 ≠ 0 := by omega
  have hmod : (0x100 + b1) % 0x100 = b1 := by omega
  have hhw2 : b1 * 0x100 + b2 = hw := by omega
  have g1 : (0x30000 : Nat) &&& 0x40000 = 0 := by decide
  have g2 : (0x30000 : Nat) ||| 0x40000 = 0x70000 := by decide
  have g3 : (0x70000 : Nat) &&& 0x20000 = 0x20000 := by decide
  have g4 : (0x70000 : Nat) &&& 0x10000 = 0x10000 := by decide
  have g5 : (0x70000 : Nat) &&& 0x30000 = 0x30000 := by decide
  have g6 : (0x70000 : Nat) &&& 0xFFFEFFFF = 0x60000 := by decide
  have g7 : (0x60000 : Nat) &&& 0x10000 = 0 := by decide
  simp +decide [read_utf16, nat_shiftLeft_8, nat_and_ff, hmod, hhw2,
    g1, g2, g3, g4, g5, g6, g7, hf, hf2]

/-- C7 (amended): in UTF-16 auto-detect decoding from the initial state, a
first halfword 0xFEFF selects big-endian (state 0x60000) and is swallowed;
a first halfword 0xFFFE selects little-endian (state 0x50000) and is
swallowed; any other first halfword selects big-endian and is then
processed as an ordinary halfword — emitted as a code point when it is not
a surrogate (surrogates instead follow the surrogate rules, as the
counterexample shows); and once the byte order is decided, a subsequent
0xFEFF halfword arriving with no surrogate pending is emitted as a code
point, in both decided byte orders. -/
theorem C7_amended_autodetect :
    utf16_decode_bytes utf16_variable_endianness (0, 0) [0xFE, 0xFF] = ((0x60000, 0), [])
    ∧ utf16_decode_bytes utf16_variable_endianness (0, 0) [0xFF, 0xFE] = ((0x50000, 0), [])
    ∧ (∀ hw : Nat, hw < 0x10000 → hw ≠ 0xFEFF → hw ≠ 0xFFFE →
        ¬ (0xD800 ≤ hw ∧ hw < 0xE000) →
        utf16_decode_bytes utf16_variable_endianness (0, 0) [hw >>> 8, hw &&& 0xFF]
          = ((0x60000, 0), [hw]))
    ∧ utf16_decode_bytes utf16_variable_endianness (0x60000, 0) [0xFE, 0xFF]
        = ((0x60000, 0), [0xFEFF])
    ∧ utf16_decode_bytes utf16_variable_endianness (0x50000, 0) [0xFF, 0xFE]
        = ((0x50000, 0), [0xFEFF]) := by
  refine ⟨by decide, by decide, ?_, by decide, by decide⟩
  intro hw hhw hf hf2 hs
  have hb1 : hw >>> 8 = hw / 0x100 := nat_shiftRight_8 hw
  have hb2 : hw &&& 0xFF = hw % 0x100 := nat_and_ff hw
  have hb1lt : hw / 0x100 < 0x100 := by omega
  have e1 : read_utf16 utf16_variable_endianness (hw / 0x100) (0, 0)
      = ((0x30000, 0x100 + hw / 0x100), []) := by
    show ((0x30000, 0x100 ||| hw / 0x100), ([] : List Nat)) = _
    rw [nat_or_100 hb1lt]
  have e2 := read_utf16_auto_first_hw (hw / 0x100) (hw % 0x100) hw hhw rfl rfl hf hf2
  have e3 : utf16_process 0x60000 hw = ((0x60000, 0), [hw]) := by
    have g : (0x60000 : Nat) &&& 0xFFFF = 0 := by decide
    have hc1 : ¬ (0xDC00 ≤ hw ∧ hw < 0xE000) := by omega
    have hc2 : ¬ (0xD800 ≤ hw ∧ hw < 0xDC00) := by omega
    simp [utf16_process, g, hc1, hc2]
  simp only [utf16_decode_bytes, runBytes, hb1, hb2, e1, e2, e3]
  simp

/-- C7 witness: the amended statement instantiated at the non-BOM first
halfword 0x0041 (bytes 00 41), which selects big-endian and is emitted. -/
theorem C7_amended_witness :
    utf16_decode_bytes utf16_variable_endianness (0, 0) [0x41 >>> 8, 0x41 &&& 0xFF]
      = ((0x60000, 0), [0x41]) :=
  C7_amended_autodetect.2.2.1 0x41 (by decide) (by decide) (by decide) (by decide)

/-- read_iso2022s dispatches to the escape machinery whenever escape state
is pending (top byte of s0 nonzero), once s1 has been initialised. -/
theorem read_iso2022s_escape_entry (toUcs : Nat → Nat → Nat) (iso : Iso2022Data)
    (input s0 s1 : Nat) (h1 : s1 &&& 0x80000000 ≠ 0) (h2 : s0 >>> 24 ≠ 0) :
    read_iso2022s toUcs iso input (s0, s1) = iso2022s_escape iso input s0 s1 := by
  simp only [read_iso2022s]
  rw [if_neg h1, if_pos (Or.inl h2)]

/-- When no escape sequence matches the swallowed prefix extended by the
input byte (and no character bytes are half-accumulated), the escape
machinery emits the prefix and the byte verbatim and clears the escape
state, leaving s1 untouched. -/
theorem iso2022s_escape_flush (iso : Iso2022Data) (input s0 s1 : Nat)
    (hmid : s1 &&& 0x0F000000 = 0)
    (hfl : iso2022s_noMatch iso (iso.escapes.getD (s0 >>> 27) ⟨[], 0, 0⟩).seq
        ((s0 >>> 24) &&& 7) input
        (iso2022s_scan iso (iso.escapes.getD (s0 >>> 27) ⟨[], 0, 0⟩).seq
          ((s0 >>> 24) &&& 7) input (s0 >>> 27) (s0 >>> 27)) = true) :
    iso2022s_escape iso input s0 s1
      = ((0, s1), (List.range ((s0 >>> 24) &&& 7)).map
          (seqGet (iso.escapes.getD (s0 >>> 27) ⟨[], 0, 0⟩).seq) ++ [input]) := by
  simp only [iso2022s_escape, hmid, ne_eq, eq_self_iff_true, not_true, if_false]
  rw [if_pos hfl]
  simp only [List.nil_append]

set_option maxRecDepth 40000 in
/-- C9: in ISO-2022-JP and ISO-2022-KR decoding, when the accumulated
escape-sequence prefix plus the current byte cannot be extended to any
escape sequence of the per-subset table (escExtendable is false), every
previously swallowed byte of the prefix and then the current byte are
emitted verbatim and the decoder returns to the non-escape state (s0 = 0,
s1 unchanged).  The states quantified over are exactly the escape-progress
states the decoder can reach: prefixes ESC and ESC $ and ESC ( for -JP
(stored as (i,n) = (0,1), (0,2), (2,2)), and ESC, ESC $, ESC $ ) for -KR
(stored as (2,1), (2,2), (2,3)); s1 carries the initialised bit and no
half-accumulated character. -/
theorem C9_unrecognized_escape_flush :
    (∀ (toUcs : Nat → Nat → Nat) (i n input s1 : Nat),
        (i, n) ∈ ([(0, 1), (0, 2), (2, 2)] : List (Nat × Nat)) →
        s1 &&& 0x80000000 ≠ 0 → s1 &&& 0x0F000000 = 0 → input < 0x100 →
        escExtendable iso2022jp ((iso2022jp.escapes.getD i ⟨[], 0, 0⟩).seq.take n) input
          = false →
        read_iso2022s toUcs iso2022jp input ((i <<< 27) ||| (n <<< 24), s1)
          = ((0, s1), (iso2022jp.escapes.getD i ⟨[], 0, 0⟩).seq.take n ++ [input]))
    ∧ (∀ (toUcs : Nat → Nat → Nat) (i n input s1 : Nat),
        (i, n) ∈ ([(2, 1), (2, 2), (2, 3)] : List (Nat × Nat)) →
        s1 &&& 0x80000000 ≠ 0 → s1 &&& 0x0F000000 = 0 → input < 0x100 →
        escExtendable iso2022kr ((iso2022kr.escapes.getD i ⟨[], 0, 0⟩).seq.take n) input
          = false →
        read_iso2022s toUcs iso2022kr input ((i <<< 27) ||| (n <<< 24), s1)
          = ((0, s1), (iso2022kr.escapes.getD i ⟨[], 0, 0⟩).seq.take n ++ [input])) := by
  constructor
  · intro toUcs i n input s1 hmem h80 hmid hlt hext
    simp only [List.mem_cons, List.not_mem_nil, or_false, Prod.mk.injEq] at hmem
    rcases hmem with ⟨hi, hn⟩ | ⟨hi, hn⟩ | ⟨hi, hn⟩ <;> subst hi <;> subst hn
    · have key : ∀ x, x < 0x100 →
          escExtendable iso2022jp ((iso2022jp.escapes.getD 0 ⟨[], 0, 0⟩).seq.take 1) x
            = false →
          iso2022s_noMatch iso2022jp
            (iso2022jp.escapes.getD (0x01000000 >>> 27) ⟨[], 0, 0⟩).seq
            ((0x01000000 >>> 24) &&& 7) x
            (iso2022s_scan iso2022jp
              (iso2022jp.escapes.getD (0x01000000 >>> 27) ⟨[], 0, 0⟩).seq
              ((0x01000000 >>> 24) &&& 7) x (0x01000000 >>> 27) (0x01000000 >>> 27))
            = true := by decide
      have hs0 : ((0 : Nat) <<< 27) ||| (1 <<< 24) = 0x01000000 := by decide
      rw [hs0, read_iso2022s_escape_entry toUcs iso2022jp input 0x01000000 s1 h80 (by decide),
          iso2022s_escape_flush iso2022jp input 0x01000000 s1 hmid (key input hlt hext)]
      have hfin : (List.range ((0x01000000 >>> 24) &&& 7)).map
          (seqGet (iso2022jp.escapes.getD (0x01000000 >>> 27) ⟨[], 0, 0⟩).seq)
            = [0x1B] := by decide
      have hpfx : (iso2022jp.escapes.getD 0 ⟨[], 0, 0⟩).seq.take 1 = [0x1B] := by decide
      rw [hfin, hpfx]
    · have key : ∀ x, x < 0x100 →
          escExtendable iso2022jp ((iso2022jp.escapes.getD 0 ⟨[], 0, 0⟩).seq.take 2) x
            = false →
          iso2022s_noMatch iso2022jp
            (iso2022jp.escapes.getD (0x02000000 >>> 27) ⟨[], 0, 0⟩).seq
            ((0x02000000 >>> 24) &&& 7) x
            (iso2022s_scan iso2022jp
              (iso2022jp.escapes.getD (0x02000000 >>> 27) ⟨[], 0, 0⟩).seq
              ((0x02000000 >>> 24) &&& 7) x (0x02000000 >>> 27) (0x02000000 >>> 27))
            = true := by decide
      have hs0 : ((0 : Nat) <<< 27) ||| (2 <<< 24) = 0x02000000 := by decide
      rw [hs0, read_iso2022s_escape_entry toUcs iso2022jp input 0x02000000 s1 h80 (by decide),
          iso2022s_escape_flush iso2022jp input 0x02000000 s1 hmid (key input hlt hext)]
      have hfin : (List.range ((0x02000000 >>> 24) &&& 7)).map
          (seqGet (iso2022jp.escapes.getD (0x02000000 >>> 27) ⟨[], 0, 0⟩).seq)
            = [0x1B, 0x24] := by decide
      have hpfx : (iso2022jp.escapes.getD 0 ⟨[], 0, 0⟩).seq.take 2 = [0x1B, 0x24] := by decide
      rw [hfin, hpfx]
    · have key : ∀ x, x < 0x100 →
          escExtendable iso2022jp ((iso2022jp.escapes.getD 2 ⟨[], 0, 0⟩).seq.take 2) x
            = false →
          iso2022s_noMatch iso2022jp
            (iso2022jp.escapes.getD (0x12000000 >>> 27) ⟨[], 0, 0⟩).seq
            ((0x12000000 >>> 24) &&& 7) x
            (iso2022s_scan iso2022jp
              (iso2022jp.escapes.getD (0x12000000 >>> 27) ⟨[], 0, 0⟩).seq
              ((0x12000000 >>> 24) &&& 7) x (0x12000000 >>> 27) (0x12000000 >>> 27))
            = true := by decide
      have hs0 : ((2 : Nat) <<< 27) ||| (2 <<< 24) = 0x12000000 := by decide
      rw [hs0, read_iso2022s_escape_entry toUcs iso2022jp input 0x12000000 s1 h80 (by decide),
          iso2022s_escape_flush iso2022jp input 0x12000000 s1 hmid (key input hlt hext)]
      have hfin : (List.range ((0x12000000 >>> 24) &&& 7)).map
          (seqGet (iso2022jp.escapes.getD (0x12000000 >>> 27) ⟨[], 0, 0⟩).seq)
            = [0x1B, 0x28] := by decide
      have hpfx : (iso2022jp.escapes.getD 2 ⟨[], 0, 0⟩).seq.take 2 = [0x1B, 0x28] := by decide
      rw [hfin, hpfx]
  · intro toUcs i n input s1 hmem h80 hmid hlt hext
    simp only [List.mem_cons, List.not_mem_nil, or_false, Prod.mk.injEq] at hmem
    rcases hmem with ⟨hi, hn⟩ | ⟨hi, hn⟩ | ⟨hi, hn⟩ <;> subst hi <;> subst hn
    · have key : ∀ x, x < 0x100 →
          escExtendable iso2022kr ((iso2022kr.escapes.getD 2 ⟨[], 0, 0⟩).seq.take 1) x
            = false →
          iso2022s_noMatch iso2022kr
            (iso2022kr.escapes.getD (0x11000000 >>> 27) ⟨[], 0, 0⟩).seq
            ((0x11000000 >>> 24) &&& 7) x
            (iso2022s_scan iso2022kr
              (iso2022kr.escapes.getD (0x11000000 >>> 27) ⟨[], 0, 0⟩).seq
              ((0x11000000 >>> 24) &&& 7) x (0x11000000 >>> 27) (0x11000000 >>> 27))
            = true := by decide
      have hs0 : ((2 : Nat) <<< 27) ||| (1 <<< 24) = 0x11000000 := by decide
      rw [hs0, read_iso2022s_escape_entry toUcs iso2022kr input 0x11000000 s1 h80 (by decide),
          iso2022s_escape_flush iso2022kr input 0x11000000 s1 hmid (key input hlt hext)]
      have hfin : (List.range ((0x11000000 >>> 24) &&& 7)).map
          (seqGet (iso2022kr.escapes.getD (0x11000000 >>> 27) ⟨[], 0, 0⟩).seq)
            = [0x1B] := by decide
      have hpfx : (iso2022kr.escapes.getD 2 ⟨[], 0, 0⟩).seq.take 1 = [0x1B] := by decide
      rw [hfin, hpfx]
    · have key : ∀ x, x < 0x100 →
          escExtendable iso2022kr ((iso2022kr.escapes.getD 2 ⟨[], 0, 0⟩).seq.take 2) x
            = false →
          iso2022s_noMatch iso2022kr
            (iso2022kr.escapes.getD (0x12000000 >>> 27) ⟨[], 0, 0⟩).seq
            ((0x12000000 >>> 24) &&& 7) x
            (iso2022s_scan iso2022kr
              (iso2022kr.escapes.getD (0x12000000 >>> 27) ⟨[], 0, 0⟩).seq
              ((0x12000000 >>> 24) &&& 7) x (0x12000000 >>> 27) (0x12000000 >>> 27))
            = true := by decide
      have hs0 : ((2 : Nat) <<< 27) ||| (2 <<< 24) = 0x12000000 := by decide
      rw [hs0, read_iso2022s_escape_entry toUcs iso2022kr input 0x12000000 s1 h80 (by decide),
          iso2022s_escape_flush iso2022kr input 0x12000000 s1 hmid (key input hlt hext)]
      have hfin : (List.range ((0x12000000 >>> 24) &&& 7)).map
          (seqGet (iso2022kr.escapes.getD (0x12000000 >>> 27) ⟨[], 0, 0⟩).seq)
            = [0x1B, 0x24] := by decide
      have hpfx : (iso2022kr.escapes.getD 2 ⟨[], 0, 0⟩).seq.take 2 = [0x1B, 0x24] := by decide
      rw [hfin, hpfx]
    · have key : ∀ x, x < 0x100 →
          escExtendable iso2022kr ((iso2022kr.escapes.getD 2 ⟨[], 0, 0⟩).seq.take 3) x
            = false →
          iso2022s_noMatch iso2022kr
            (iso2022kr.escapes.getD (0x13000000 >>> 27) ⟨[], 0, 0⟩).seq
            ((0x13000000 >>> 24) &&& 7) x
            (iso2022s_scan iso2022kr
              (iso2022kr.escapes.getD (0x13000000 >>> 27) ⟨[], 0, 0⟩).seq
              ((0x13000000 >>> 24) &&& 7) x (0x13000000 >>> 27) (0x13000000 >>> 27))
            = true := by decide
      have hs0 : ((2 : Nat) <<< 27) ||| (3 <<< 24) = 0x13000000 := by decide
      rw [hs0, read_iso2022s_escape_entry toUcs iso2022kr input 0x13000000 s1 h80 (by decide),
          iso2022s_escape_flush iso2022kr input 0x13000000 s1 hmid (key input hlt hext)]
      have hfin : (List.range ((0x13000000 >>> 24) &&& 7)).map
          (seqGet (iso2022kr.escapes.getD (0x13000000 >>> 27) ⟨[], 0, 0⟩).seq)
            = [0x1B, 0x24, 0x29] := by decide
      have hpfx : (iso2022kr.escapes.getD 2 ⟨[], 0, 0⟩).seq.take 3 = [0x1B, 0x24, 0x29] := by decide
      rw [hfin, hpfx]

/-- C9 witness: ISO-2022-JP in escape state ESC $ (state (0,2)) receiving
Z (0x5A), which extends no escape sequence, flushes ESC $ Z verbatim; using
the (0,2) entry of the theorem at s1 = 0x80000000. -/
theorem C9_unrecognized_escape_flush_witness :
    read_iso2022s (fun _ c => c) iso2022jp 0x5A ((0 <<< 27) ||| (2 <<< 24), 0x80000000)
      = ((0, 0x80000000), (iso2022jp.escapes.getD 0 ⟨[], 0, 0⟩).seq.take 2 ++ [0x5A]) :=
  C9_unrecognized_escape_flush.1 (fun _ c => c) 0 2 0x5A 0x80000000 (by decide)
    (by decide) (by decide) (by decide) (by decide)
